import Mathlib

/-!
Shallow embedding of the ai-notes-summarizer record access layer
(`src/unnamed/part_000`, schema in `src/db/tables.ts`).

The store is three tables (documents, summaries, jobs) held as lists
together with auto-increment counters.  Each remote procedure becomes a
Lean function from the caller's id, the (schema-validated shape of the)
input and the current state to a result paired with the post state.
JavaScript truthiness tests on optional numeric ids (`if (input.documentId)`)
are translated literally: `0` is falsy.
-/

/-- Opaque JSON-like structured value (`column.json`, `z.any()`), as a
first-order tree: arrays and objects are encoded as cons lists inside the
type itself so that equality is decidable by derivation. -/
inductive Json where
  | null : Json
  | bool (b : Bool) : Json
  | num (n : Int) : Json
  | str (s : String) : Json
  | arrNil : Json
  | arrCons (head : Json) (tail : Json) : Json
  | objNil : Json
  | objCons (key : String) (value : Json) (tail : Json) : Json
deriving DecidableEq, Repr

/-- `sourceType` enum of `NotesDocuments`. -/
inductive SourceType where
  | manual | upload | web | other
deriving DecidableEq, Repr

/-- `summaryType` enum of `NoteSummaries`. -/
inductive SummaryType where
  | short | detailed | bullet_points | key_points | action_items
deriving DecidableEq, Repr

/-- `jobType` enum of `SummaryJobs`. -/
inductive JobType where
  | summary | key_points | action_items | rewrite | other
deriving DecidableEq, Repr

/-- `status` enum of `SummaryJobs`. -/
inductive JobStatus where
  | pending | completed | failed
deriving DecidableEq, Repr

/-- Error codes thrown by the handlers (`ActionError` codes); `BAD_REQUEST`
stands for the schema-validation failures the zod layer raises before a
handler runs. -/
inductive ErrCode where
  | NOT_FOUND | BAD_REQUEST
deriving DecidableEq, Repr

/-- A row of `NotesDocuments`. -/
structure Document where
  id : Nat
  ownerId : String
  title : String
  content : String
  sourceType : SourceType
  sourceMeta : Option Json
  tags : Option String
  createdAt : Nat
  updatedAt : Nat
deriving DecidableEq, Repr

/-- A row of `NoteSummaries`. -/
structure Summary where
  id : Nat
  documentId : Nat
  ownerId : String
  summaryType : SummaryType
  content : String
  originalLength : Option Nat
  summaryLength : Option Nat
  meta : Option Json
  createdAt : Nat
deriving DecidableEq, Repr

/-- A row of `SummaryJobs`. -/
structure Job where
  id : Nat
  documentId : Option Nat
  ownerId : String
  jobType : JobType
  input : Option Json
  output : Option Json
  status : JobStatus
  createdAt : Nat
deriving DecidableEq, Repr

/-- The whole relational store: the three tables plus the auto-increment
counters for their integer primary keys. -/
structure DB where
  documents : List Document
  summaries : List Summary
  jobs : List Job
  nextDocumentId : Nat
  nextSummaryId : Nat
  nextJobId : Nat
deriving DecidableEq, Repr

/-- JavaScript truthiness of an optional number: `undefined`/absent and `0`
are falsy (`if (input.documentId)`). -/
def jsTruthy : Option Nat → Bool
  | none => false
  | some n => n != 0

/-- Input of `createDocument` after zod parsing (`title`, `content`
required; the rest optional). -/
structure CreateDocumentInput where
  title : String
  content : String
  sourceType : Option SourceType
  sourceMeta : Option Json
  tags : Option String
deriving DecidableEq, Repr

/-- `createDocument`: validate `min(1)` on title and content, then insert a
row stamped with `ownerId = user`, fresh id, `createdAt = updatedAt = now`,
returning the inserted row. -/
def createDocument (user : String) (input : CreateDocumentInput) (now : Nat)
    (s : DB) : Except ErrCode Document × DB :=
  if input.title = "" || input.content = "" then
    (.error .BAD_REQUEST, s)
  else
    let document : Document :=
      { id := s.nextDocumentId
        ownerId := user
        title := input.title
        content := input.content
        sourceType := input.sourceType.getD .manual
        sourceMeta := input.sourceMeta
        tags := input.tags
        createdAt := now
        updatedAt := now }
    (.ok document,
      { s with
        documents := s.documents ++ [document]
        nextDocumentId := s.nextDocumentId + 1 })

/-- `listDocuments`: all rows of `NotesDocuments` with
`ownerId = user`; never fails, never mutates. -/
def listDocuments (user : String) (s : DB) : List Document × DB :=
  (s.documents.filter (fun d => d.ownerId == user), s)

example :
    (createDocument "alice" ⟨"t", "c", none, none, none⟩ 5
      ⟨[], [], [], 1, 1, 1⟩).1 =
    .ok ⟨1, "alice", "t", "c", .manual, none, none, 5, 5⟩ := rfl

/-- Input of `updateDocument` after zod parsing: required `id`, every
mutable field optional (`undefined` = absent = `none`). -/
structure UpdateDocumentInput where
  id : Nat
  title : Option String
  content : Option String
  sourceType : Option SourceType
  sourceMeta : Option Json
  tags : Option String
deriving DecidableEq, Repr

/-- `updateDocument`: validate, look the row up scoped by
`ownerId = user`, fail `NOT_FOUND` if absent; if no mutable field is
supplied return the existing row unchanged; otherwise run an UPDATE (scoped
by id and owner) merging the supplied fields and refreshing `updatedAt`,
returning the first updated row. -/
def updateDocument (user : String) (input : UpdateDocumentInput) (now : Nat)
    (s : DB) : Except ErrCode Document × DB :=
  if input.title == some "" || input.content == some "" then
    (.error .BAD_REQUEST, s)
  else
    match s.documents.find? (fun d => d.id == input.id && d.ownerId == user) with
    | none => (.error .NOT_FOUND, s)
    | some existing =>
      if input.title.isNone && input.content.isNone && input.sourceType.isNone
          && input.sourceMeta.isNone && input.tags.isNone then
        (.ok existing, s)
      else
        let upd : Document → Document := fun d =>
          if d.id == input.id && d.ownerId == user then
            { d with
              title := input.title.getD d.title
              content := input.content.getD d.content
              sourceType := input.sourceType.getD d.sourceType
              sourceMeta :=
                match input.sourceMeta with
                | some m => some m
                | none => d.sourceMeta
              tags :=
                match input.tags with
                | some t => some t
                | none => d.tags
              updatedAt := now }
          else d
        let documents := s.documents.map upd
        (.ok ((documents.filter
            (fun d => d.id == input.id && d.ownerId == user)).headD existing),
          { s with documents := documents })

/-- `deleteDocument`: run a DELETE scoped by id and `ownerId = user` with
RETURNING; if it deleted nothing, fail `NOT_FOUND`. -/
def deleteDocument (user : String) (id : Nat) (s : DB) :
    Except ErrCode Document × DB :=
  let deleted := s.documents.filter (fun d => d.id == id && d.ownerId == user)
  let s' := { s with
    documents := s.documents.filter (fun d => !(d.id == id && d.ownerId == user)) }
  match deleted.head? with
  | none => (.error .NOT_FOUND, s')
  | some d => (.ok d, s')

/-- `getDocumentWithSummaries`: ownership-scoped document lookup
(`NOT_FOUND` when absent), then all summaries with that `documentId`
(fetched by document id only). -/
def getDocumentWithSummaries (user : String) (id : Nat) (s : DB) :
    Except ErrCode (Document × List Summary) × DB :=
  match s.documents.find? (fun d => d.id == id && d.ownerId == user) with
  | none => (.error .NOT_FOUND, s)
  | some document =>
    (.ok (document, s.summaries.filter (fun x => x.documentId == id)), s)

/-- Input of `createSummary` after zod parsing. -/
structure CreateSummaryInput where
  documentId : Nat
  summaryType : Option SummaryType
  content : String
  originalLength : Option Nat
  summaryLength : Option Nat
  meta : Option Json
deriving DecidableEq, Repr

/-- `createSummary`: validate `min(1)` on content, require the parent
document to exist scoped by `ownerId = user` (else `NOT_FOUND`), then
insert a summary stamped with `ownerId = user`. -/
def createSummary (user : String) (input : CreateSummaryInput) (now : Nat)
    (s : DB) : Except ErrCode Summary × DB :=
  if input.content = "" then
    (.error .BAD_REQUEST, s)
  else
    match s.documents.find?
        (fun d => d.id == input.documentId && d.ownerId == user) with
    | none => (.error .NOT_FOUND, s)
    | some _ =>
      let summary : Summary :=
        { id := s.nextSummaryId
          documentId := input.documentId
          ownerId := user
          summaryType := input.summaryType.getD .short
          content := input.content
          originalLength := input.originalLength
          summaryLength := input.summaryLength
          meta := input.meta
          createdAt := now }
      (.ok summary,
        { s with
          summaries := s.summaries ++ [summary]
          nextSummaryId := s.nextSummaryId + 1 })

/-- `listSummaries`: caller's documents, narrowed to `documentId` when that
input is truthy (`NOT_FOUND` when the narrowing is empty); then the
caller's summaries whose `documentId` is in the accessible set. -/
def listSummaries (user : String) (documentId : Option Nat) (s : DB) :
    Except ErrCode (List Summary) × DB :=
  let documents := s.documents.filter (fun d => d.ownerId == user)
  let documents :=
    if jsTruthy documentId then
      documents.filter (fun d => some d.id == documentId)
    else documents
  if jsTruthy documentId && documents.isEmpty then
    (.error .NOT_FOUND, s)
  else
    let docIds := documents.map (fun d => d.id)
    let filtered := (s.summaries.filter (fun x => x.ownerId == user)).filter
      (fun x => docIds.contains x.documentId)
    (.ok filtered, s)

/-- Input of `createJob` after zod parsing. -/
structure CreateJobInput where
  documentId : Option Nat
  jobType : Option JobType
  input : Option Json
  output : Option Json
  status : Option JobStatus
deriving DecidableEq, Repr

/-- `createJob`: when `documentId` is truthy, require a caller-owned
document with that id (else `NOT_FOUND`); insert a job stamped with
`ownerId = user`, defaulting `jobType` to `summary` and `status` to
`pending`. -/
def createJob (user : String) (input : CreateJobInput) (now : Nat) (s : DB) :
    Except ErrCode Job × DB :=
  if jsTruthy input.documentId &&
      (s.documents.filter
        (fun d => some d.id == input.documentId && d.ownerId == user)).isEmpty then
    (.error .NOT_FOUND, s)
  else
    let job : Job :=
      { id := s.nextJobId
        documentId := input.documentId
        ownerId := user
        jobType := input.jobType.getD .summary
        input := input.input
        output := input.output
        status := input.status.getD .pending
        createdAt := now }
    (.ok job,
      { s with
        jobs := s.jobs ++ [job]
        nextJobId := s.nextJobId + 1 })

/-- Input of `updateJob` after zod parsing. -/
structure UpdateJobInput where
  id : Nat
  output : Option Json
  status : Option JobStatus
deriving DecidableEq, Repr

/-- `updateJob`: ownership-scoped lookup (`NOT_FOUND` when absent); no-op
returning the existing row when neither `output` nor `status` is supplied;
otherwise run an UPDATE whose WHERE clause filters by id only (not by
owner), setting just the supplied fields, and return the first updated
row. -/
def updateJob (user : String) (input : UpdateJobInput) (s : DB) :
    Except ErrCode Job × DB :=
  match s.jobs.find? (fun j => j.id == input.id && j.ownerId == user) with
  | none => (.error .NOT_FOUND, s)
  | some existing =>
    if input.output.isNone && input.status.isNone then
      (.ok existing, s)
    else
      let upd : Job → Job := fun j =>
        if j.id == input.id then
          { j with
            output :=
              match input.output with
              | some o => some o
              | none => j.output
            status := input.status.getD j.status }
        else j
      let jobs := s.jobs.map upd
      (.ok ((jobs.filter (fun j => j.id == input.id)).headD existing),
        { s with jobs := jobs })

/-- `listJobs`: caller's documents, narrowed to `documentId` when that
input is truthy (`NOT_FOUND` when the narrowing is empty); then the
caller's jobs filtered by the accessible document set (a job's own
`documentId` is tested for truthiness: absent or `0` passes) and by the
optional `status`. -/
def listJobs (user : String) (documentId : Option Nat)
    (status : Option JobStatus) (s : DB) : Except ErrCode (List Job) × DB :=
  let documents := s.documents.filter (fun d => d.ownerId == user)
  let documents :=
    if jsTruthy documentId then
      documents.filter (fun d => some d.id == documentId)
    else documents
  if jsTruthy documentId && documents.isEmpty then
    (.error .NOT_FOUND, s)
  else
    let allowedDocIds := documents.map (fun d => d.id)
    let jobs := s.jobs.filter (fun j => j.ownerId == user)
    let filtered := jobs.filter (fun j =>
      (if jsTruthy j.documentId then
        allowedDocIds.contains (j.documentId.getD 0)
      else true) &&
      (match status with
       | some st => j.status == st
       | none => true))
    (.ok filtered, s)

/-- One request to the record access layer by a fixed caller. -/
inductive Op where
  | createDocument (input : CreateDocumentInput)
  | updateDocument (input : UpdateDocumentInput)
  | deleteDocument (id : Nat)
  | listDocuments
  | getDocumentWithSummaries (id : Nat)
  | createSummary (input : CreateSummaryInput)
  | listSummaries (documentId : Option Nat)
  | createJob (input : CreateJobInput)
  | updateJob (input : UpdateJobInput)
  | listJobs (documentId : Option Nat) (status : Option JobStatus)
deriving DecidableEq, Repr

/-- Post state of one operation run by `user` at time `now` (on error the
handlers leave the store as the source does: nothing was mutated before the
throw). -/
def stepDB (user : String) (now : Nat) (s : DB) : Op → DB
  | .createDocument input => (createDocument user input now s).2
  | .updateDocument input => (updateDocument user input now s).2
  | .deleteDocument id => (deleteDocument user id s).2
  | .listDocuments => (listDocuments user s).2
  | .getDocumentWithSummaries id => (getDocumentWithSummaries user id s).2
  | .createSummary input => (createSummary user input now s).2
  | .listSummaries documentId => (listSummaries user documentId s).2
  | .createJob input => (createJob user input now s).2
  | .updateJob input => (updateJob user input s).2
  | .listJobs documentId status => (listJobs user documentId status s).2

/-- Well-formed store: in every table the integer primary keys are distinct
and below the auto-increment counter (every reachable store satisfies
this). -/
def WF (s : DB) : Prop :=
  (s.documents.map Document.id).Nodup
    ∧ (∀ d ∈ s.documents, d.id < s.nextDocumentId)
    ∧ (s.summaries.map Summary.id).Nodup
    ∧ (∀ x ∈ s.summaries, x.id < s.nextSummaryId)
    ∧ (s.jobs.map Job.id).Nodup
    ∧ (∀ j ∈ s.jobs, j.id < s.nextJobId)

instance (s : DB) : Decidable (WF s) := by
  unfold WF; infer_instance

/-- C1: a document created by U is listed for U and never for V ≠ U. -/
theorem createDocument_listDocuments_ownership
    (U V : String) (input : CreateDocumentInput) (now : Nat) (s : DB)
    (d : Document) (s' : DB)
    (hcreate : createDocument U input now s = (.ok d, s'))
    (hne : V ≠ U) :
    d ∈ (listDocuments U s').1 ∧ d ∉ (listDocuments V s').1 := by
  have hne' : U ≠ V := hne.symm
  unfold createDocument at hcreate
  split at hcreate
  · simp at hcreate
  · have hd := congrArg Prod.fst hcreate
    have hs := congrArg Prod.snd hcreate
    simp only [Except.ok.injEq] at hd hs
    subst hd
    subst hs
    constructor
    · simp [listDocuments, List.mem_filter]
    · simp [listDocuments, List.mem_filter, hne']

instance {ε α : Type} [DecidableEq ε] [DecidableEq α] :
    DecidableEq (Except ε α) := fun a b =>
  match a, b with
  | .ok x, .ok y =>
    if h : x = y then .isTrue (by rw [h]) else .isFalse (by simp [h])
  | .error x, .error y =>
    if h : x = y then .isTrue (by rw [h]) else .isFalse (by simp [h])
  | .ok _, .error _ => .isFalse (by simp)
  | .error _, .ok _ => .isFalse (by simp)

/-- C3: `updateDocument` with no mutable field supplied, on a document the
caller owns, returns the pre-existing row and leaves the store (including
the stored row and its `updatedAt`) unchanged. -/
theorem updateDocument_noop_frame (user : String) (input : UpdateDocumentInput)
    (now : Nat) (s : DB) (e : Document)
    (htitle : input.title = none) (hcontent : input.content = none)
    (hsource : input.sourceType = none) (hmeta : input.sourceMeta = none)
    (htags : input.tags = none)
    (hfind : s.documents.find?
      (fun d => d.id == input.id && d.ownerId == user) = some e) :
    updateDocument user input now s = (.ok e, s) := by
  simp [updateDocument, htitle, hcontent, hsource, hmeta, htags, hfind]

theorem updateDocument_noop_frame_witness :
    updateDocument "alice" ⟨1, none, none, none, none, none⟩ 7
      ⟨[⟨1, "alice", "t", "c", .manual, none, none, 0, 0⟩], [], [], 2, 1, 1⟩ =
    (.ok ⟨1, "alice", "t", "c", .manual, none, none, 0, 0⟩,
      ⟨[⟨1, "alice", "t", "c", .manual, none, none, 0, 0⟩], [], [], 2, 1, 1⟩) :=
  updateDocument_noop_frame "alice" _ 7 _ _ rfl rfl rfl rfl rfl (by decide)

/-- C4: `deleteDocument` on an id that does not resolve to a caller-owned
document (nonexistent, or owned by someone else) fails `NOT_FOUND` and
leaves every table of the store unchanged. -/
theorem deleteDocument_notFound_frame (user : String) (id : Nat) (s : DB)
    (h : ∀ d ∈ s.documents, d.id = id → d.ownerId ≠ user) :
    deleteDocument user id s = (.error .NOT_FOUND, s) := by
  unfold deleteDocument
  have h1 : s.documents.filter (fun d => d.id == id && d.ownerId == user) = [] := by
    rw [List.filter_eq_nil_iff]
    intro d hd
    simp only [Bool.and_eq_true, beq_iff_eq, not_and]
    exact h d hd
  have h2 : s.documents.filter
      (fun d => !(d.id == id && d.ownerId == user)) = s.documents := by
    rw [List.filter_eq_self]
    intro d hd
    simp only [Bool.not_eq_true', Bool.and_eq_false_iff]
    by_contra hb
    simp only [Bool.and_eq_false_iff, not_or, Bool.not_eq_false, beq_iff_eq] at hb
    exact h d hd hb.1 hb.2
  rw [h1, h2]
  rfl

theorem deleteDocument_notFound_frame_witness :
    deleteDocument "alice" 9
      ⟨[⟨1, "bob", "t", "c", .manual, none, none, 0, 0⟩], [], [], 2, 1, 1⟩ =
    (.error .NOT_FOUND,
      ⟨[⟨1, "bob", "t", "c", .manual, none, none, 0, 0⟩], [], [], 2, 1, 1⟩) :=
  deleteDocument_notFound_frame "alice" 9 _ (by decide)

/-- C5: `createSummary` (with schema-valid content) for a `documentId`
that does not resolve to a caller-owned document fails `NOT_FOUND` and
leaves the store, in particular the summaries table, unchanged. -/
theorem createSummary_notFound_frame (user : String)
    (input : CreateSummaryInput) (now : Nat) (s : DB)
    (hcontent : input.content ≠ "")
    (h : ∀ d ∈ s.documents, d.id = input.documentId → d.ownerId ≠ user) :
    createSummary user input now s = (.error .NOT_FOUND, s) := by
  unfold createSummary
  have hfind : s.documents.find?
      (fun d => d.id == input.documentId && d.ownerId == user) = none := by
    rw [List.find?_eq_none]
    intro d hd
    simp only [Bool.and_eq_true, beq_iff_eq, not_and]
    exact h d hd
  simp [hcontent, hfind]

theorem createSummary_notFound_frame_witness :
    createSummary "alice" ⟨1, none, "sum", none, none, none⟩ 4
      ⟨[⟨1, "bob", "t", "c", .manual, none, none, 0, 0⟩], [], [], 2, 1, 1⟩ =
    (.error .NOT_FOUND,
      ⟨[⟨1, "bob", "t", "c", .manual, none, none, 0, 0⟩], [], [], 2, 1, 1⟩) :=
  createSummary_notFound_frame "alice" _ 4 _ (by decide) (by decide)

/-- C6 counterexample: with `documentId = 0` — an id the caller certainly
does not own (the store holds no documents at all) — `listSummaries` does
not fail `NOT_FOUND`: the truthiness test skips the narrowing entirely. -/
theorem listSummaries_zero_filter_counterexample :
    (listSummaries "alice" (some 0) ⟨[], [], [], 1, 1, 1⟩).1 ≠
      Except.error ErrCode.NOT_FOUND := by decide

/-- C6 (amended to nonzero ids): `listSummaries` with a nonzero
`documentId` that does not resolve to a caller-owned document fails
`NOT_FOUND` and leaves the store unchanged, even when that document exists
for another user. -/
theorem listSummaries_unowned_notFound (user : String) (docId : Nat) (s : DB)
    (hnz : docId ≠ 0)
    (h : ∀ d ∈ s.documents, d.id = docId → d.ownerId ≠ user) :
    listSummaries user (some docId) s = (.error .NOT_FOUND, s) := by
  unfold listSummaries
  have ht : jsTruthy (some docId) = true := by
    simp [jsTruthy, hnz]
  have hemp : (s.documents.filter (fun d => d.ownerId == user)).filter
      (fun d => some d.id == some docId) = [] := by
    rw [List.filter_eq_nil_iff]
    intro d hd
    have hd1 := List.mem_filter.mp hd
    intro heq
    rw [beq_iff_eq, Option.some.injEq] at heq
    exact h d hd1.1 heq (by simpa using hd1.2)
  simp [ht, hemp]
  exact h

theorem listSummaries_unowned_notFound_witness :
    listSummaries "alice" (some 1)
      ⟨[⟨1, "bob", "t", "c", .manual, none, none, 0, 0⟩], [], [], 2, 1, 1⟩ =
    (.error .NOT_FOUND,
      ⟨[⟨1, "bob", "t", "c", .manual, none, none, 0, 0⟩], [], [], 2, 1, 1⟩) :=
  listSummaries_unowned_notFound "alice" 1 _ (by decide) (by decide)

/-- C10: `documentId = 0` is falsy in every truthiness test: `createJob`
skips the parent-document ownership check and inserts a job whose
`documentId` is `0`, and `listSummaries`/`listJobs` treat a `documentId`
filter of `0` exactly like an absent filter. -/
theorem zero_documentId_bypass (user : String) (inp : CreateJobInput)
    (now : Nat) (st : Option JobStatus) (s : DB)
    (hzero : inp.documentId = some 0) :
    (∃ job s', createJob user inp now s = (.ok job, s')
      ∧ job.documentId = some 0 ∧ s'.jobs = s.jobs ++ [job])
    ∧ listSummaries user (some 0) s = listSummaries user none s
    ∧ listJobs user (some 0) st s = listJobs user none st s := by
  refine ⟨?_, rfl, rfl⟩
  unfold createJob
  rw [hzero]
  exact ⟨_, _, rfl, rfl, rfl⟩

theorem zero_documentId_bypass_witness :
    (∃ job s',
      createJob "alice" ⟨some 0, none, none, none, none⟩ 2 ⟨[], [], [], 1, 1, 1⟩
        = (.ok job, s')
      ∧ job.documentId = some 0 ∧ s'.jobs = [] ++ [job])
    ∧ listSummaries "alice" (some 0) ⟨[], [], [], 1, 1, 1⟩ =
        listSummaries "alice" none ⟨[], [], [], 1, 1, 1⟩
    ∧ listJobs "alice" (some 0) none ⟨[], [], [], 1, 1, 1⟩ =
        listJobs "alice" none none ⟨[], [], [], 1, 1, 1⟩ :=
  zero_documentId_bypass "alice" ⟨some 0, none, none, none, none⟩ 2 none
    ⟨[], [], [], 1, 1, 1⟩ rfl

theorem createDocument_listDocuments_ownership_witness :
    (⟨1, "alice", "t", "c", .manual, none, none, 5, 5⟩ : Document) ∈
      (listDocuments "alice"
        ⟨[⟨1, "alice", "t", "c", .manual, none, none, 5, 5⟩], [], [], 2, 1, 1⟩).1 ∧
    (⟨1, "alice", "t", "c", .manual, none, none, 5, 5⟩ : Document) ∉
      (listDocuments "bob"
        ⟨[⟨1, "alice", "t", "c", .manual, none, none, 5, 5⟩], [], [], 2, 1, 1⟩).1 :=
  createDocument_listDocuments_ownership "alice" "bob" ⟨"t", "c", none, none, none⟩
    5 ⟨[], [], [], 1, 1, 1⟩ _ _ rfl (by decide)

/-- Looking a freshly appended row up by its id and owner finds exactly
that row: no earlier row shares the id. -/
theorem find?_append_fresh (l : List Document) (nd : Document) (user : String)
    (hfresh : ∀ x ∈ l, x.id ≠ nd.id) (howner : nd.ownerId = user) :
    (l ++ [nd]).find? (fun x => x.id == nd.id && x.ownerId == user)
      = some nd := by
  induction l with
  | nil => simp [List.find?, howner]
  | cons a t ih =>
    rw [List.cons_append, List.find?_cons_of_neg, ih]
    · intro x hx
      exact hfresh x (List.mem_cons_of_mem a hx)
    · simp only [Bool.and_eq_true, beq_iff_eq, not_and]
      intro hid
      exact ((hfresh a (List.mem_cons_self a t)) hid).elim

/-- C8: the opaque `sourceMeta` handed to `createDocument` is stored
verbatim, and `getDocumentWithSummaries` on the returned id reads the very
same document row back, its `sourceMeta` unchanged. -/
theorem sourceMeta_roundtrip (user : String) (input : CreateDocumentInput)
    (now : Nat) (s : DB) (d : Document) (s' : DB) (hWF : WF s)
    (hcreate : createDocument user input now s = (.ok d, s')) :
    d.sourceMeta = input.sourceMeta ∧
    ∃ summaries,
      getDocumentWithSummaries user d.id s' = (.ok (d, summaries), s') := by
  unfold createDocument at hcreate
  split at hcreate
  · simp at hcreate
  · have hd := congrArg Prod.fst hcreate
    have hs := congrArg Prod.snd hcreate
    simp only [Except.ok.injEq] at hd hs
    subst hd
    subst hs
    refine ⟨rfl,
      s.summaries.filter (fun x => x.documentId == s.nextDocumentId), ?_⟩
    unfold getDocumentWithSummaries
    have hfind := find?_append_fresh s.documents
      ⟨s.nextDocumentId, user, input.title, input.content,
        input.sourceType.getD .manual, input.sourceMeta, input.tags, now, now⟩
      user (fun x hx => Nat.ne_of_lt (hWF.2.1 x hx)) rfl
    simp only [] at hfind ⊢
    rw [hfind]

theorem sourceMeta_roundtrip_witness :
    (⟨1, "alice", "t", "c", .manual,
        some (Json.objCons "a" (Json.num 1) Json.objNil), none, 3, 3⟩ :
      Document).sourceMeta = some (Json.objCons "a" (Json.num 1) Json.objNil) ∧
    ∃ summaries,
      getDocumentWithSummaries "alice" 1
        ⟨[⟨1, "alice", "t", "c", .manual,
            some (Json.objCons "a" (Json.num 1) Json.objNil), none, 3, 3⟩],
          [], [], 2, 1, 1⟩ =
      (.ok (⟨1, "alice", "t", "c", .manual,
          some (Json.objCons "a" (Json.num 1) Json.objNil), none, 3, 3⟩,
        summaries),
        ⟨[⟨1, "alice", "t", "c", .manual,
            some (Json.objCons "a" (Json.num 1) Json.objNil), none, 3, 3⟩],
          [], [], 2, 1, 1⟩) :=
  sourceMeta_roundtrip "alice"
    ⟨"t", "c", none, some (Json.objCons "a" (Json.num 1) Json.objNil), none⟩ 3
    ⟨[], [], [], 1, 1, 1⟩ _ _ (by decide) rfl

/-- The C7 visibility predicate exactly as the claim words it: a job is
listed when its `documentId`, when set, refers to a caller-owned document
(jobs with no `documentId` are included). -/
def listJobsStatusClaimed (user : String) (st : JobStatus) (s : DB) :
    List Job :=
  s.jobs.filter (fun j => j.ownerId == user && j.status == st &&
    (match j.documentId with
     | some d => s.documents.any (fun doc => doc.id == d && doc.ownerId == user)
     | none => true))

/-- The C7 visibility predicate as the code actually behaves: a set
`documentId` of `0` is falsy and passes the document filter like an absent
one. -/
def listJobsStatusActual (user : String) (st : JobStatus) (s : DB) :
    List Job :=
  s.jobs.filter (fun j => j.ownerId == user && j.status == st &&
    (match j.documentId with
     | some d =>
       d == 0 ||
         s.documents.any (fun doc => doc.id == d && doc.ownerId == user)
     | none => true))

/-- C7 counterexample: a job whose `documentId` is set to `0` — which
refers to no caller-owned document — is still returned by `listJobs` with a
status filter, so the claimed set is not the returned set.  (The state is
reachable: `createJob` accepts `documentId = 0`.) -/
theorem listJobs_status_filter_counterexample :
    (listJobs "alice" none (some .failed)
        ⟨[], [], [⟨1, some 0, "alice", .summary, none, none, .failed, 0⟩],
          1, 1, 2⟩).1 ≠
      .ok (listJobsStatusClaimed "alice" .failed
        ⟨[], [], [⟨1, some 0, "alice", .summary, none, none, .failed, 0⟩],
          1, 1, 2⟩) := by decide

/-- C7 (amended to the truthiness behavior): `listJobs` with only a status
filter returns exactly the caller's jobs with that status whose
`documentId`, when set and nonzero, refers to a caller-owned document
(jobs with no `documentId`, or with `documentId = 0`, are included). -/
theorem listJobs_status_filter_amended (user : String) (st : JobStatus)
    (s : DB) :
    listJobs user none (some st) s =
      (.ok (listJobsStatusActual user st s), s) := by
  unfold listJobs listJobsStatusActual
  have h0 : jsTruthy none = false := rfl
  simp only [h0, Bool.false_and, Bool.false_eq_true, if_false,
    List.filter_filter]
  congr 2
  apply List.filter_congr
  intro j hj
  have hvis : (if jsTruthy j.documentId then
        ((s.documents.filter (fun d => d.ownerId == user)).map
          (fun d => d.id)).contains (j.documentId.getD 0)
      else true) =
      (match j.documentId with
       | some d =>
         d == 0 ||
           s.documents.any (fun doc => doc.id == d && doc.ownerId == user)
       | none => true) := by
    cases hdoc : j.documentId with
    | none => simp [jsTruthy]
    | some d =>
      by_cases hd0 : d = 0
      · subst hd0
        simp [jsTruthy]
      · have hbne : (d != 0) = true := by simp [hd0]
        simp only [jsTruthy, hbne, if_true, Option.getD_some,
          beq_iff_eq, hd0, Bool.false_or]
        rw [Bool.eq_iff_iff]
        simp only [List.contains_eq_any_beq, List.any_eq_true, List.mem_map,
          List.mem_filter, beq_iff_eq, Bool.and_eq_true]
        aesop
  rw [hvis]
  simp [Bool.and_comm, Bool.and_left_comm, Bool.and_assoc]

/-- Both directions of a row-level change confined to the caller's rows:
every row present afterwards was already present (unchanged) or carries the
caller's `ownerId` (inserts and rewrites stamp the caller), and every row
present before is still there (unchanged) or carried the caller's
`ownerId` (deletes and rewrites touch only the caller's rows). -/
def OwnerScopedChange {α : Type} (owner : α → String) (user : String)
    (old new : List α) : Prop :=
  (∀ x ∈ new, x ∈ old ∨ owner x = user) ∧
  (∀ x ∈ old, x ∈ new ∨ owner x = user)

theorem ownerScopedChange_refl {α : Type} (owner : α → String) (user : String)
    (l : List α) : OwnerScopedChange owner user l l :=
  ⟨fun _ hx => .inl hx, fun _ hx => .inl hx⟩

theorem ownerScopedChange_append {α : Type} (owner : α → String)
    (user : String) (l : List α) (x : α) (hx : owner x = user) :
    OwnerScopedChange owner user l (l ++ [x]) := by
  constructor
  · intro y hy
    rcases List.mem_append.mp hy with h | h
    · exact .inl h
    · simp only [List.mem_singleton] at h
      subst h
      exact .inr hx
  · intro y hy
    exact .inl (List.mem_append.mpr (.inl hy))

theorem ownerScopedChange_filter {α : Type} (owner : α → String)
    (user : String) (l : List α) (q : α → Bool)
    (h : ∀ x ∈ l, q x = false → owner x = user) :
    OwnerScopedChange owner user l (l.filter q) := by
  constructor
  · intro y hy
    exact .inl (List.mem_filter.mp hy).1
  · intro y hy
    cases hq : q y with
    | true => exact .inl (List.mem_filter.mpr ⟨hy, hq⟩)
    | false => exact .inr (h y hy hq)

theorem ownerScopedChange_map {α : Type} (owner : α → String) (user : String)
    (l : List α) (f : α → α)
    (h : ∀ x ∈ l, f x = x ∨ (owner x = user ∧ owner (f x) = user)) :
    OwnerScopedChange owner user l (l.map f) := by
  constructor
  · intro y hy
    obtain ⟨x, hx, rfl⟩ := List.mem_map.mp hy
    rcases h x hx with heq | ⟨_, ho⟩
    · rw [heq]
      exact .inl hx
    · exact .inr ho
  · intro x hx
    rcases h x hx with heq | ⟨ho, _⟩
    · have hm := List.mem_map_of_mem f hx
      rw [heq] at hm
      exact .inl hm
    · exact .inr ho

/-- C2: against a well-formed store, every operation is ownership-scoped:
it only inserts rows stamped with the caller's id, only rewrites rows owned
by the caller (into rows still owned by the caller), and only deletes rows
owned by the caller — in particular `updateJob` never modifies a job row
owned by a different user. -/
theorem mutations_ownership_scoped (user : String) (now : Nat) (s : DB)
    (op : Op) (hWF : WF s) :
    OwnerScopedChange Document.ownerId user s.documents
        (stepDB user now s op).documents
    ∧ OwnerScopedChange Summary.ownerId user s.summaries
        (stepDB user now s op).summaries
    ∧ OwnerScopedChange Job.ownerId user s.jobs
        (stepDB user now s op).jobs := by
  obtain ⟨-, -, -, -, hnj, -⟩ := hWF
  cases op with
  | createDocument input =>
    simp only [stepDB]
    unfold createDocument
    dsimp only
    split
    · exact ⟨ownerScopedChange_refl _ _ _, ownerScopedChange_refl _ _ _,
        ownerScopedChange_refl _ _ _⟩
    · exact ⟨ownerScopedChange_append _ _ _ _ rfl,
        ownerScopedChange_refl _ _ _, ownerScopedChange_refl _ _ _⟩
  | updateDocument input =>
    simp only [stepDB]
    unfold updateDocument
    dsimp only
    split
    · exact ⟨ownerScopedChange_refl _ _ _, ownerScopedChange_refl _ _ _,
        ownerScopedChange_refl _ _ _⟩
    · split
      · exact ⟨ownerScopedChange_refl _ _ _, ownerScopedChange_refl _ _ _,
          ownerScopedChange_refl _ _ _⟩
      · split
        · exact ⟨ownerScopedChange_refl _ _ _, ownerScopedChange_refl _ _ _,
            ownerScopedChange_refl _ _ _⟩
        · refine ⟨ownerScopedChange_map _ _ _ _ ?_,
            ownerScopedChange_refl _ _ _, ownerScopedChange_refl _ _ _⟩
          intro x hx
          by_cases hpred : (x.id == input.id && x.ownerId == user) = true
          · right
            have hown : x.ownerId = user := by
              simp only [Bool.and_eq_true, beq_iff_eq] at hpred
              exact hpred.2
            refine ⟨hown, ?_⟩
            simp only [hpred, if_true]
            exact hown
          · left
            simp only [Bool.not_eq_true] at hpred
            simp [hpred]
  | deleteDocument id =>
    simp only [stepDB]
    unfold deleteDocument
    dsimp only
    have hfil : OwnerScopedChange Document.ownerId user s.documents
        (s.documents.filter (fun d => !(d.id == id && d.ownerId == user))) := by
      refine ownerScopedChange_filter _ _ _ _ ?_
      intro x _ hq
      simp only [Bool.not_eq_false', Bool.and_eq_true, beq_iff_eq] at hq
      exact hq.2
    split
    · exact ⟨hfil, ownerScopedChange_refl _ _ _, ownerScopedChange_refl _ _ _⟩
    · exact ⟨hfil, ownerScopedChange_refl _ _ _, ownerScopedChange_refl _ _ _⟩
  | listDocuments =>
    exact ⟨ownerScopedChange_refl _ _ _, ownerScopedChange_refl _ _ _,
      ownerScopedChange_refl _ _ _⟩
  | getDocumentWithSummaries id =>
    simp only [stepDB]
    unfold getDocumentWithSummaries
    split
    · exact ⟨ownerScopedChange_refl _ _ _, ownerScopedChange_refl _ _ _,
        ownerScopedChange_refl _ _ _⟩
    · exact ⟨ownerScopedChange_refl _ _ _, ownerScopedChange_refl _ _ _,
        ownerScopedChange_refl _ _ _⟩
  | createSummary input =>
    simp only [stepDB]
    unfold createSummary
    dsimp only
    split
    · exact ⟨ownerScopedChange_refl _ _ _, ownerScopedChange_refl _ _ _,
        ownerScopedChange_refl _ _ _⟩
    · split
      · exact ⟨ownerScopedChange_refl _ _ _, ownerScopedChange_refl _ _ _,
          ownerScopedChange_refl _ _ _⟩
      · exact ⟨ownerScopedChange_refl _ _ _,
          ownerScopedChange_append _ _ _ _ rfl, ownerScopedChange_refl _ _ _⟩
  | listSummaries documentId =>
    simp only [stepDB]
    unfold listSummaries
    dsimp only
    split
    all_goals split
    all_goals
      exact ⟨ownerScopedChange_refl _ _ _, ownerScopedChange_refl _ _ _,
        ownerScopedChange_refl _ _ _⟩
  | createJob input =>
    simp only [stepDB]
    unfold createJob
    dsimp only
    split
    · exact ⟨ownerScopedChange_refl _ _ _, ownerScopedChange_refl _ _ _,
        ownerScopedChange_refl _ _ _⟩
    · exact ⟨ownerScopedChange_refl _ _ _, ownerScopedChange_refl _ _ _,
        ownerScopedChange_append _ _ _ _ rfl⟩
  | updateJob input =>
    simp only [stepDB]
    unfold updateJob
    dsimp only
    split
    · exact ⟨ownerScopedChange_refl _ _ _, ownerScopedChange_refl _ _ _,
        ownerScopedChange_refl _ _ _⟩
    · next existing hfind =>
      split
      · exact ⟨ownerScopedChange_refl _ _ _, ownerScopedChange_refl _ _ _,
          ownerScopedChange_refl _ _ _⟩
      · refine ⟨ownerScopedChange_refl _ _ _, ownerScopedChange_refl _ _ _,
          ownerScopedChange_map _ _ _ _ ?_⟩
        intro j hj
        by_cases hid : (j.id == input.id) = true
        · right
          have hex := List.mem_of_find?_eq_some hfind
          have hpred := List.find?_some hfind
          simp only [Bool.and_eq_true, beq_iff_eq] at hpred
          have hid' : j.id = input.id := by
            simpa using hid
          have hje : j = existing :=
            List.inj_on_of_nodup_map hnj hj hex (by rw [hid', hpred.1])
          have hown : j.ownerId = user := by
            rw [hje]
            exact hpred.2
          refine ⟨hown, ?_⟩
          simp only [hid, if_true]
          exact hown
        · left
          simp only [Bool.not_eq_true] at hid
          simp [hid]
  | listJobs documentId status =>
    simp only [stepDB]
    unfold listJobs
    dsimp only
    split
    all_goals split
    all_goals
      exact ⟨ownerScopedChange_refl _ _ _, ownerScopedChange_refl _ _ _,
        ownerScopedChange_refl _ _ _⟩

theorem mutations_ownership_scoped_witness :
    OwnerScopedChange Document.ownerId "alice"
        [⟨1, "alice", "t", "c", .manual, none, none, 0, 0⟩]
        (stepDB "alice" 9
          ⟨[⟨1, "alice", "t", "c", .manual, none, none, 0, 0⟩], [],
            [⟨1, none, "alice", .summary, none, none, .pending, 0⟩], 2, 1, 2⟩
          (.updateJob ⟨1, some (Json.num 2), none⟩)).documents
    ∧ OwnerScopedChange Summary.ownerId "alice" []
        (stepDB "alice" 9
          ⟨[⟨1, "alice", "t", "c", .manual, none, none, 0, 0⟩], [],
            [⟨1, none, "alice", .summary, none, none, .pending, 0⟩], 2, 1, 2⟩
          (.updateJob ⟨1, some (Json.num 2), none⟩)).summaries
    ∧ OwnerScopedChange Job.ownerId "alice"
        [⟨1, none, "alice", .summary, none, none, .pending, 0⟩]
        (stepDB "alice" 9
          ⟨[⟨1, "alice", "t", "c", .manual, none, none, 0, 0⟩], [],
            [⟨1, none, "alice", .summary, none, none, .pending, 0⟩], 2, 1, 2⟩
          (.updateJob ⟨1, some (Json.num 2), none⟩)).jobs :=
  mutations_ownership_scoped "alice" 9
    ⟨[⟨1, "alice", "t", "c", .manual, none, none, 0, 0⟩], [],
      [⟨1, none, "alice", .summary, none, none, .pending, 0⟩], 2, 1, 2⟩
    (.updateJob ⟨1, some (Json.num 2), none⟩) (by decide)

/-- C9: `updateJob` mutates at most the `output` and `status` fields of the
addressed job row — every other field of that row, every job row with a
different id, and the documents and summaries tables are untouched; when
neither `output` nor `status` is supplied it returns the existing row with
the store unchanged; and no operation ever deletes a job row. -/
theorem updateJob_frame (user : String) (now : Nat) (s : DB) :
    (∀ input r s', updateJob user input s = (.ok r, s') →
      s'.documents = s.documents ∧ s'.summaries = s.summaries ∧
      (∀ j ∈ s.jobs, j.id ≠ input.id → j ∈ s'.jobs) ∧
      (∀ j' ∈ s'.jobs, ∃ j, j ∈ s.jobs ∧ j'.id = j.id ∧
        j'.documentId = j.documentId ∧ j'.ownerId = j.ownerId ∧
        j'.jobType = j.jobType ∧ j'.input = j.input ∧
        j'.createdAt = j.createdAt))
    ∧ (∀ input r s', input.output = none → input.status = none →
        updateJob user input s = (.ok r, s') →
        s' = s ∧ r ∈ s.jobs ∧ r.ownerId = user)
    ∧ (∀ op, ∀ j ∈ s.jobs,
        ∃ j' ∈ (stepDB user now s op).jobs, j'.id = j.id) := by
  refine ⟨?_, ?_, ?_⟩
  · intro input r s' heq
    unfold updateJob at heq
    cases hfind : s.jobs.find?
        (fun j => j.id == input.id && j.ownerId == user) with
    | none =>
      rw [hfind] at heq
      simp at heq
    | some existing =>
      rw [hfind] at heq
      dsimp only at heq
      split at heq
      · have h1 := congrArg Prod.fst heq
        have h2 := congrArg Prod.snd heq
        simp only [Except.ok.injEq] at h1 h2
        subst h2
        refine ⟨rfl, rfl, fun j hj _ => hj, ?_⟩
        intro j' hj'
        exact ⟨j', hj', rfl, rfl, rfl, rfl, rfl, rfl⟩
      · have h2 := congrArg Prod.snd heq
        dsimp only at h2
        subst h2
        refine ⟨rfl, rfl, ?_, ?_⟩
        · intro j hj hne
          have hm := List.mem_map_of_mem (f := fun jj : Job =>
            if jj.id == input.id then
              { jj with
                output :=
                  match input.output with
                  | some o => some o
                  | none => jj.output
                status := input.status.getD jj.status }
            else jj) hj
          have hc : ¬((j.id == input.id) = true) := by simp [hne]
          dsimp only at hm
          rw [if_neg hc] at hm
          exact hm
        · intro j' hj'
          obtain ⟨j, hj, rfl⟩ := List.mem_map.mp hj'
          refine ⟨j, hj, ?_⟩
          by_cases hid : (j.id == input.id) = true
          · simp [hid]
          · simp only [Bool.not_eq_true] at hid
            simp [hid]
  · intro input r s' hout hstat heq
    unfold updateJob at heq
    cases hfind : s.jobs.find?
        (fun j => j.id == input.id && j.ownerId == user) with
    | none =>
      rw [hfind] at heq
      simp at heq
    | some existing =>
      rw [hfind, hout, hstat] at heq
      simp only [Option.isNone_none, Bool.and_self, if_true] at heq
      have h1 := congrArg Prod.fst heq
      have h2 := congrArg Prod.snd heq
      simp only [Except.ok.injEq] at h1 h2
      subst h1
      subst h2
      have hpred := List.find?_some hfind
      simp only [Bool.and_eq_true, beq_iff_eq] at hpred
      exact ⟨rfl, List.mem_of_find?_eq_some hfind, hpred.2⟩
  · intro op j hj
    cases op with
    | createDocument input =>
      simp only [stepDB]
      unfold createDocument
      dsimp only
      split
      · exact ⟨j, hj, rfl⟩
      · exact ⟨j, hj, rfl⟩
    | updateDocument input =>
      simp only [stepDB]
      unfold updateDocument
      dsimp only
      split
      · exact ⟨j, hj, rfl⟩
      · split
        · exact ⟨j, hj, rfl⟩
        · split
          · exact ⟨j, hj, rfl⟩
          · exact ⟨j, hj, rfl⟩
    | deleteDocument id =>
      simp only [stepDB]
      unfold deleteDocument
      dsimp only
      split
      · exact ⟨j, hj, rfl⟩
      · exact ⟨j, hj, rfl⟩
    | listDocuments =>
      exact ⟨j, hj, rfl⟩
    | getDocumentWithSummaries id =>
      simp only [stepDB]
      unfold getDocumentWithSummaries
      split
      · exact ⟨j, hj, rfl⟩
      · exact ⟨j, hj, rfl⟩
    | createSummary input =>
      simp only [stepDB]
      unfold createSummary
      dsimp only
      split
      · exact ⟨j, hj, rfl⟩
      · split
        · exact ⟨j, hj, rfl⟩
        · exact ⟨j, hj, rfl⟩
    | listSummaries documentId =>
      simp only [stepDB]
      unfold listSummaries
      dsimp only
      split
      all_goals split
      all_goals exact ⟨j, hj, rfl⟩
    | createJob input =>
      simp only [stepDB]
      unfold createJob
      dsimp only
      split
      · exact ⟨j, hj, rfl⟩
      · exact ⟨j, List.mem_append.mpr (.inl hj), rfl⟩
    | updateJob input =>
      simp only [stepDB]
      unfold updateJob
      dsimp only
      split
      · exact ⟨j, hj, rfl⟩
      · split
        · exact ⟨j, hj, rfl⟩
        · refine ⟨_, List.mem_map_of_mem _ hj, ?_⟩
          dsimp only
          split
          · rfl
          · rfl
    | listJobs documentId status =>
      simp only [stepDB]
      unfold listJobs
      dsimp only
      split
      all_goals split
      all_goals exact ⟨j, hj, rfl⟩

theorem updateJob_frame_witness :
    ([] : List Document) = ([] : List Document) ∧
    ([] : List Summary) = ([] : List Summary) ∧
    (∀ j ∈ [(⟨1, some 2, "alice", .summary, none, none, .pending, 0⟩ : Job)],
      j.id ≠ 1 →
        j ∈ [(⟨1, some 2, "alice", .summary, none, none, .completed, 0⟩ :
          Job)]) ∧
    (∀ j' ∈ [(⟨1, some 2, "alice", .summary, none, none, .completed, 0⟩ :
        Job)],
      ∃ j, j ∈ [(⟨1, some 2, "alice", .summary, none, none, .pending, 0⟩ :
          Job)] ∧
        j'.id = j.id ∧ j'.documentId = j.documentId ∧
        j'.ownerId = j.ownerId ∧ j'.jobType = j.jobType ∧
        j'.input = j.input ∧ j'.createdAt = j.createdAt) :=
  (updateJob_frame "alice" 0
    ⟨[], [], [⟨1, some 2, "alice", .summary, none, none, .pending, 0⟩],
      1, 1, 2⟩).1
    ⟨1, none, some .completed⟩
    ⟨1, some 2, "alice", .summary, none, none, .completed, 0⟩
    ⟨[], [], [⟨1, some 2, "alice", .summary, none, none, .completed, 0⟩],
      1, 1, 2⟩ rfl
